import Mathlib

/-!
Shallow embedding of the DSPyBridge retrieval pipeline.

Embedded source files:
* `src/app/api/retrieval.py` — `DocumentRetriever.load_documents`,
  `DocumentRetriever.retrieve`, and the `rag_query` endpoint handler.
* `src/app/services/dspy_service.py` — `DSPyService.simple_retrieval`.
* `src/app/models/schemas.py` — the `RetrievalRequest` field constraints.

Modelling conventions: Python strings are Lean `String`s; Python float
scores are modelled as exact rationals `ℚ` (every score in the source is a
ratio of two small set cardinalities); Python's stable `list.sort` with
`reverse=True` is modelled by insertion sort with a descending comparison
that keeps earlier elements in front of equal-keyed later ones — the output
of a stable sort is uniquely determined by the key order, so this is the
same list Python produces.  Raising an exception is modelled by
`Except.error`; the external generation backend is an explicit function
argument that may fail.
-/

namespace DSPyBridge

/-- Helper for Python `str.split()`: walk the characters, accumulating the
current word (in reverse) and emitting it when whitespace is hit; runs of
whitespace produce no empty words. -/
def splitWsAux : List Char → List Char → List String
  | [], acc => if acc = [] then [] else [String.mk acc.reverse]
  | c :: cs, acc =>
    if c.isWhitespace then
      if acc = [] then splitWsAux cs []
      else String.mk acc.reverse :: splitWsAux cs []
    else splitWsAux cs (c :: acc)

/-- Python `str.split()` (no separator argument): split on runs of
whitespace, discarding empty tokens. -/
def splitWs (cs : List Char) : List String := splitWsAux cs []

/-- Embedding of `s.lower().split()` from `DocumentRetriever.retrieve` and
`DSPyService.simple_retrieval`: lowercase characterwise, then whitespace
tokenization. -/
def wordsOf (s : String) : List String := splitWs (s.data.map Char.toLower)

/-- Embedding of `set(s.lower().split())`: the token list collapsed to a set. -/
def wordSet (s : String) : Finset String := (wordsOf s).toFinset

/-- The per-document score computed inside the loop of
`DocumentRetriever.retrieve` (src/app/api/retrieval.py lines 77-85) and
identically in `DSPyService.simple_retrieval`:
`score = intersection / union if union > 0 else 0`. -/
def docScore (query doc : String) : ℚ :=
  let qw := wordSet query
  let dw := wordSet doc
  let inter := (qw ∩ dw).card
  let u := (qw ∪ dw).card
  if 0 < u then (inter : ℚ) / (u : ℚ) else 0

/-- Comparison used for `scores.sort(key=lambda x: x[1], reverse=True)`:
pair `a` may sit in front of pair `b` iff `a`'s score is ≥ `b`'s. -/
def scoreGe (a b : String × ℚ) : Prop := b.2 ≤ a.2

instance : DecidableRel scoreGe := fun a b => inferInstanceAs (Decidable (b.2 ≤ a.2))

instance : IsTotal (String × ℚ) scoreGe := ⟨fun a b => le_total b.2 a.2⟩

instance : IsTrans (String × ℚ) scoreGe := ⟨fun _ _ _ hab hbc => le_trans hbc hab⟩

/-- Embedding of `scores.sort(key=lambda x: x[1], reverse=True)`: stable
sort, score descending.  Insertion sort with `scoreGe` inserts each element after all
strictly greater scores and before equal ones, so earlier elements stay in
front of equal-scored later ones — exactly Python's stable sort. -/
def sortByScoreDesc (l : List (String × ℚ)) : List (String × ℚ) :=
  l.insertionSort scoreGe

/-- Embedding of `DocumentRetriever.retrieve` (src/app/api/retrieval.py
lines 72-92):
score every loaded document against the query, sort descending, take
`top_k`, keep only strictly positive scores. -/
def retrieve (documents : List String) (query : String) (top_k : Nat) :
    List String × List ℚ :=
  if documents = [] then ([], [])
  else
    let scores := documents.map (fun doc => (doc, docScore query doc))
    let sorted := sortByScoreDesc scores
    let top := sorted.take top_k
    ((top.filter (fun p => decide (0 < p.2))).map Prod.fst,
     (top.filter (fun p => decide (0 < p.2))).map Prod.snd)

/-- Embedding of `DSPyService.simple_retrieval`
(src/app/services/dspy_service.py lines 64-86): same scoring and sort, but no empty-corpus early return and no
positive-score filter after truncation. -/
def simple_retrieval (query : String) (documents : List String) (top_k : Nat) :
    List String × List ℚ :=
  let scores := documents.map (fun doc => docScore query doc)
  let doc_scores := documents.zip scores
  let sorted := sortByScoreDesc doc_scores
  ((sorted.take top_k).map Prod.fst, (sorted.take top_k).map Prod.snd)

/-- The hard-coded `sample_docs` list of `DocumentRetriever.load_documents`. -/
def sample_docs : List String :=
  ["DSPy is a framework for programming language models. It provides structured ways to build AI applications.",
   "ReAct agents combine reasoning and acting to solve complex tasks using tools and external information.",
   "Chain of Thought prompting helps models break down complex problems into step-by-step reasoning."]

/-- Python `str.strip()` (no argument): drop whitespace from both ends.
Written over the character list so that it evaluates by kernel reduction. -/
def pyStrip (s : String) : String :=
  String.mk (((s.data.dropWhile Char.isWhitespace).reverse.dropWhile
    Char.isWhitespace).reverse)

/-- Embedding of `DocumentRetriever.load_documents`
(src/app/api/retrieval.py lines 43-70).  The directory enumeration is abstracted as a list of
`(file name, optional content)` pairs, `none` standing for a file whose
read raised (logged and skipped).  A readable file whose stripped content
is non-empty is stored as `"[name] content"`; if nothing was loaded the
built-in sample documents are substituted.  This is the body of the
`for txt_file ...` loop. -/
def storeFile (f : String × Option String) : Option String :=
  match f.2 with
  | none => none
  | some content =>
    let t := pyStrip content
    if t = "" then none else some ("[" ++ f.1 ++ "] " ++ t)

def loadDocuments (files : List (String × Option String)) : List String :=
  let loaded := files.filterMap storeFile
  if loaded = [] then sample_docs else loaded

/-- Python `sep.join(l)`. -/
def joinSep (sep : String) : List String → String
  | [] => ""
  | [d] => d
  | d :: ds => d ++ sep ++ joinSep sep ds

/-- Modelled from the spec: the `RAGRequest` class used by `rag_query` is
imported from `app.models` but its definition is not under src/; the spec
recognizes the request fields query text and desired result count. -/
structure RAGRequest where
  query : String
  top_k : Nat
deriving DecidableEq

/-- Modelled from the spec: the `RAGResponse` class used by `rag_query` is
imported from `app.models` but its definition is not under src/; its fields
are taken from the keyword arguments of the two constructor calls in
`rag_query` — query, answer text, retrieved documents, assembled context,
timestamp.  It carries no per-source score field. -/
structure RAGResponse where
  query : String
  response : String
  retrieved_docs : List String
  context_used : String
  timestamp : Nat
deriving DecidableEq

/-- Status and detail of an `HTTPException` raised by the handler. -/
structure HTTPError where
  status_code : Nat
  detail : String
deriving DecidableEq

/-- Embedding of the `rag_query` endpoint handler
(src/app/api/retrieval.py lines 135-181).  `gen` is the configured generation backend (`config.is_configured
and _rag_module`), `none` when unconfigured; a raised generation exception
is `Except.error`.  The surrounding `try/except` turns any raised exception
into `HTTPException(500, "RAG processing failed: ...")`.  `now` stands for
`datetime.now()`. -/
def ragQuery (documents : List String)
    (gen : Option (String → String → Except String String))
    (req : RAGRequest) (now : Nat) : Except HTTPError RAGResponse :=
  let r := retrieve documents req.query req.top_k
  if r.1 = [] then
    .ok ⟨req.query, "No relevant documents found for your query.", [], "", now⟩
  else
    let context := joinSep "\n\n" r.1
    match gen with
    | some g =>
      match g req.query context with
      | .ok response => .ok ⟨req.query, response, r.1, context, now⟩
      | .error e => .error ⟨500, "RAG processing failed: " ++ e⟩
    | none =>
      .ok ⟨req.query,
           "Based on the retrieved documents: " ++ context.take 500 ++ "...",
           r.1, context, now⟩

/-- Field validation of `RetrievalRequest` (src/app/models/schemas.py lines
29-33): `query` is a required string with no further constraint,
`documents` a required list, `top_k` constrained by `ge=1, le=10`.
Returns the parsed request when validation succeeds. -/
def mkRetrievalRequest (query : String) (documents : List String)
    (top_k : Int) : Option (String × List String × Int) :=
  if 1 ≤ top_k ∧ top_k ≤ 10 then some (query, documents, top_k) else none

/-- The spec's scoring formula (§4.2): Jaccard similarity of two word sets,
`|intersection| / |union|`, and `0` when the union is empty.  Stated on
abstract finite sets, independently of the code's loop. -/
def jaccardSimilarity (A B : Finset String) : ℚ :=
  if A ∪ B = ∅ then 0 else ((A ∩ B).card : ℚ) / ((A ∪ B).card : ℚ)

/-- Drop the zero-scored tail entries from a `(documents, scores)` result
pairwise.  Used to relate the two retrieval implementations. -/
def filterPositive (r : List String × List ℚ) : List String × List ℚ :=
  let pairs := (r.1.zip r.2).filter (fun p => decide (0 < p.2))
  (pairs.map Prod.fst, pairs.map Prod.snd)

/-! ## Helper lemmas -/

lemma char_toNat_injective {a b : Char} (h : a.toNat = b.toNat) : a = b :=
  Char.ext (UInt32.ext h)

lemma isWhitespace_toNat (c : Char) :
    c.isWhitespace = true ↔
      (c.toNat = 32 ∨ c.toNat = 9 ∨ c.toNat = 13 ∨ c.toNat = 10) := by
  constructor
  · intro h
    simp [Char.isWhitespace] at h
    rcases h with ((h | h) | h) | h <;> subst h <;> decide
  · rintro (h | h | h | h)
    · have he : c = ' ' := char_toNat_injective (by rw [h]; rfl)
      subst he; rfl
    · have he : c = '\t' := char_toNat_injective (by rw [h]; rfl)
      subst he; rfl
    · have he : c = '\r' := char_toNat_injective (by rw [h]; rfl)
      subst he; rfl
    · have he : c = '\n' := char_toNat_injective (by rw [h]; rfl)
      subst he; rfl

lemma toNat_ofNat_valid (n : Nat) (h : n.isValidChar) :
    (Char.ofNat n).toNat = n := by
  rw [Char.ofNat, dif_pos h]; rfl

/-- `Char.toLower` maps non-whitespace to non-whitespace and whitespace to
itself. -/
lemma isWhitespace_toLower (c : Char) :
    (Char.toLower c).isWhitespace = c.isWhitespace := by
  show (let n := c.toNat;
        if n ≥ 65 ∧ n ≤ 90 then Char.ofNat (n + 32) else c).isWhitespace
      = c.isWhitespace
  by_cases h : c.toNat ≥ 65 ∧ c.toNat ≤ 90
  · rw [if_pos h]
    have hvalid : (c.toNat + 32).isValidChar := Or.inl (by omega)
    have hto : (Char.ofNat (c.toNat + 32)).toNat = c.toNat + 32 :=
      toNat_ofNat_valid _ hvalid
    have h1 : (Char.ofNat (c.toNat + 32)).isWhitespace = false := by
      rw [← Bool.not_eq_true, isWhitespace_toNat, hto]
      omega
    have h2 : c.isWhitespace = false := by
      rw [← Bool.not_eq_true, isWhitespace_toNat]
      omega
    rw [h1, h2]
  · rw [if_neg h]

/-- Consuming a whitespace-free block just extends the accumulator. -/
lemma splitWsAux_append_nows (w : List Char)
    (hw : ∀ c ∈ w, c.isWhitespace = false) (cs acc : List Char) :
    splitWsAux (w ++ cs) acc = splitWsAux cs (w.reverse ++ acc) := by
  induction w generalizing acc with
  | nil => rfl
  | cons c w ih =>
    have hc : c.isWhitespace = false := hw c (by simp)
    have ihw : ∀ x ∈ w, x.isWhitespace = false := fun x hx => hw x (by simp [hx])
    show splitWsAux (c :: (w ++ cs)) acc = _
    rw [splitWsAux, hc]
    simp only [Bool.false_eq_true, if_false]
    rw [ih ihw]
    simp [List.append_assoc]

/-- A whitespace-free non-empty block followed by a space tokenizes to that
block as one word, then the tokens of the remainder. -/
lemma splitWs_word_cons (w rest : List Char)
    (hw : ∀ c ∈ w, c.isWhitespace = false) (hne : w ≠ []) :
    splitWs (w ++ ' ' :: rest) = String.mk w :: splitWs rest := by
  unfold splitWs
  rw [splitWsAux_append_nows w hw (' ' :: rest) []]
  rw [splitWsAux]
  have hsp : (' ' : Char).isWhitespace = true := rfl
  rw [hsp]
  simp only [if_true]
  have hrne : w.reverse ++ [] ≠ [] := by simp [hne]
  rw [if_neg hrne]
  simp

lemma sortByScoreDesc_sorted (l : List (String × ℚ)) :
    List.Sorted scoreGe (sortByScoreDesc l) :=
  List.sorted_insertionSort scoreGe l

lemma sortByScoreDesc_perm (l : List (String × ℚ)) :
    List.Perm (sortByScoreDesc l) l :=
  List.perm_insertionSort scoreGe l

/-- Stability of the insertion step: inserting `x` passes only over
strictly greater scores, so filtering at `x`'s own score puts `x` first. -/
lemma filter_score_orderedInsert (s : ℚ) (x : String × ℚ)
    (l : List (String × ℚ)) :
    (List.orderedInsert scoreGe x l).filter (fun p => decide (p.2 = s))
      = if x.2 = s then x :: l.filter (fun p => decide (p.2 = s))
        else l.filter (fun p => decide (p.2 = s)) := by
  induction l with
  | nil =>
    by_cases hx : x.2 = s <;> simp [List.orderedInsert, List.filter_cons, hx]
  | cons y l ih =>
    show (if scoreGe x y then x :: y :: l
          else y :: List.orderedInsert scoreGe x l).filter _ = _
    by_cases hxy : scoreGe x y
    · rw [if_pos hxy]
      by_cases hx : x.2 = s <;> simp [List.filter_cons, hx]
    · rw [if_neg hxy]
      have hlt : x.2 < y.2 := lt_of_not_le hxy
      by_cases hx : x.2 = s
      · have hy : ¬ y.2 = s := by rw [← hx]; exact ne_of_gt hlt
        simp [List.filter_cons, hy, ih, hx]
      · by_cases hy : y.2 = s <;> simp [List.filter_cons, hy, ih, hx]

/-- Stability of the whole sort: for each score value the sorted list and
the input list agree on the sublist of entries carrying that score. -/
lemma filter_score_sortByScoreDesc (s : ℚ) (l : List (String × ℚ)) :
    (sortByScoreDesc l).filter (fun p => decide (p.2 = s))
      = l.filter (fun p => decide (p.2 = s)) := by
  induction l with
  | nil => rfl
  | cons x l ih =>
    show (List.orderedInsert scoreGe x
            (List.insertionSort scoreGe l)).filter _ = _
    rw [filter_score_orderedInsert]
    show (if x.2 = s then x :: (sortByScoreDesc l).filter _
          else (sortByScoreDesc l).filter _) = _
    rw [ih]
    by_cases hx : x.2 = s <;> simp [List.filter_cons, hx]

lemma docScore_def (q d : String) :
    docScore q d
      = if 0 < (wordSet q ∪ wordSet d).card
        then ((wordSet q ∩ wordSet d).card : ℚ) / ((wordSet q ∪ wordSet d).card : ℚ)
        else 0 := rfl

lemma docScore_eval (q d : String) (i u : ℕ)
    (hi : (wordSet q ∩ wordSet d).card = i)
    (hu : (wordSet q ∪ wordSet d).card = u) :
    docScore q d = if 0 < u then (i : ℚ) / (u : ℚ) else 0 := by
  rw [docScore_def, hi, hu]

lemma docScore_empty_query (d : String) : docScore "" d = 0 := by
  rw [docScore_def]
  have hq : wordSet "" = ∅ := rfl
  rw [hq]
  simp [Finset.empty_inter]

lemma retrieve_def_ne (documents : List String) (query : String) (k : Nat)
    (h : documents ≠ []) :
    retrieve documents query k =
      ((((sortByScoreDesc (documents.map fun d => (d, docScore query d))).take k).filter
          (fun p => decide (0 < p.2))).map Prod.fst,
       (((sortByScoreDesc (documents.map fun d => (d, docScore query d))).take k).filter
          (fun p => decide (0 < p.2))).map Prod.snd) := by
  unfold retrieve
  rw [if_neg h]

lemma retrieve_empty_query (docs : List String) (k : Nat) :
    retrieve docs "" k = ([], []) := by
  by_cases h : docs = []
  · subst h; rfl
  · rw [retrieve_def_ne _ _ _ h]
    have hnil :
        ((sortByScoreDesc (docs.map fun d => (d, docScore "" d))).take k).filter
            (fun p => decide (0 < p.2)) = [] := by
      rw [List.filter_eq_nil_iff]
      intro p hp
      have hp1 : p ∈ sortByScoreDesc (docs.map fun d => (d, docScore "" d)) :=
        List.mem_of_mem_take hp
      have hp2 : p ∈ docs.map fun d => (d, docScore "" d) :=
        (sortByScoreDesc_perm _).mem_iff.mp hp1
      obtain ⟨d, _, rfl⟩ := List.mem_map.mp hp2
      simp [docScore_empty_query]
    rw [hnil]
    rfl

lemma mem_retrieve_mem_documents (documents : List String) (query : String)
    (k : Nat) (d : String) (hd : d ∈ (retrieve documents query k).1) :
    d ∈ documents := by
  by_cases h : documents = []
  · subst h; simp [retrieve] at hd
  · rw [retrieve_def_ne _ _ _ h] at hd
    obtain ⟨p, hp, rfl⟩ := List.mem_map.mp hd
    have hp1 : p ∈ (sortByScoreDesc (documents.map fun d => (d, docScore query d))).take k :=
      List.mem_of_mem_filter hp
    have hp2 : p ∈ documents.map fun d => (d, docScore query d) :=
      (sortByScoreDesc_perm _).mem_iff.mp (List.mem_of_mem_take hp1)
    obtain ⟨a, ha, rfl⟩ := List.mem_map.mp hp2
    exact ha

lemma joinSep_cons_cons (sep x y : String) (ys : List String) :
    joinSep sep (x :: y :: ys) = x ++ sep ++ joinSep sep (y :: ys) := rfl

lemma joinSep_decomp (sep : String) (l : List String) (d : String)
    (h : d ∈ l) : ∃ a b, joinSep sep l = a ++ d ++ b := by
  induction l with
  | nil => cases h
  | cons x xs ih =>
    cases xs with
    | nil =>
      rcases List.mem_singleton.mp h with rfl
      exact ⟨"", "", by simp [joinSep]⟩
    | cons y ys =>
      rcases List.mem_cons.mp h with rfl | hmem
      · refine ⟨"", sep ++ joinSep sep (y :: ys), ?_⟩
        show joinSep sep (d :: y :: ys) = "" ++ d ++ (sep ++ joinSep sep (y :: ys))
        rw [String.empty_append, joinSep_cons_cons, String.append_assoc]
      · obtain ⟨a, b, hab⟩ := ih hmem
        refine ⟨x ++ sep ++ a, b, ?_⟩
        show joinSep sep (x :: y :: ys) = x ++ sep ++ a ++ d ++ b
        rw [joinSep_cons_cons, hab]
        simp [String.append_assoc]

lemma zip_map_fst_snd_self {α β : Type} (l : List (α × β)) :
    (l.map Prod.fst).zip (l.map Prod.snd) = l := by
  have h := List.unzip_eq_map l
  rw [show l.map Prod.fst = l.unzip.1 by rw [h],
      show l.map Prod.snd = l.unzip.2 by rw [h],
      List.zip_unzip]

lemma loadDocuments_def (files : List (String × Option String)) :
    loadDocuments files
      = if files.filterMap storeFile = [] then sample_docs
        else files.filterMap storeFile := rfl

/-! ## Claim theorems -/

/-- C4: for every query and document, the relevance score computed by
retrieval equals the Jaccard similarity of the lowercase whitespace-token
sets of query and document (intersection size over union size, 0 when the
union is empty), and every score lies in the interval [0,1]. -/
theorem score_is_jaccard_in_unit_interval (q d : String) :
    docScore q d = jaccardSimilarity (wordSet q) (wordSet d)
      ∧ 0 ≤ docScore q d ∧ docScore q d ≤ 1 := by
  refine ⟨?_, ?_, ?_⟩
  · rw [docScore_def, jaccardSimilarity]
    by_cases h : wordSet q ∪ wordSet d = ∅
    · rw [if_pos h, h]
      simp
    · rw [if_neg h]
      have hpos : 0 < (wordSet q ∪ wordSet d).card :=
        Finset.card_pos.mpr (Finset.nonempty_iff_ne_empty.mpr h)
      rw [if_pos hpos]
  · rw [docScore_def]
    by_cases hpos : 0 < (wordSet q ∪ wordSet d).card
    · rw [if_pos hpos]
      positivity
    · rw [if_neg hpos]
  · rw [docScore_def]
    by_cases hpos : 0 < (wordSet q ∪ wordSet d).card
    · rw [if_pos hpos]
      rw [div_le_one (by exact_mod_cast hpos)]
      exact_mod_cast Finset.card_le_card Finset.inter_subset_union
    · rw [if_neg hpos]
      norm_num

/-- C5: retrieval on an empty corpus returns the empty result without
error, and for a corpus of non-empty documents an empty query gives every
document score 0 and returns the empty result. -/
theorem empty_corpus_and_empty_query (q : String) (docs : List String)
    (k k2 : Nat) (h : ∀ d ∈ docs, d ≠ "") :
    retrieve [] q k = ([], [])
      ∧ retrieve docs "" k2 = ([], [])
      ∧ ∀ d ∈ docs, docScore "" d = 0 :=
  ⟨rfl, retrieve_empty_query docs k2, fun d _ => docScore_empty_query d⟩

theorem empty_corpus_and_empty_query_witness :
    retrieve [] "anything" 3 = ([], [])
      ∧ retrieve ["alpha beta"] "" 5 = ([], [])
      ∧ ∀ d ∈ ["alpha beta"], docScore "" d = 0 :=
  empty_corpus_and_empty_query "anything" ["alpha beta"] 3 5 (by decide)

/-- C6: when no readable, non-empty text file is found, the corpus is the
built-in placeholder set, which is non-empty. -/
theorem loadDocuments_placeholder (files : List (String × Option String))
    (h : ∀ f ∈ files, ∀ c, f.2 = some c → pyStrip c = "") :
    loadDocuments files = sample_docs ∧ 1 ≤ sample_docs.length := by
  have hnil : files.filterMap storeFile = [] := by
    rw [List.filterMap_eq_nil_iff]
    intro f hf
    rcases f with ⟨n, c?⟩
    cases c? with
    | none => simp [storeFile]
    | some c =>
      have ht := h (n, some c) hf c rfl
      simp [storeFile, ht]
  rw [loadDocuments_def, hnil]
  exact ⟨rfl, by simp [sample_docs]⟩

theorem loadDocuments_placeholder_witness :
    loadDocuments [("empty.txt", some "   "), ("bad.txt", none)] = sample_docs
      ∧ 1 ≤ sample_docs.length :=
  loadDocuments_placeholder [("empty.txt", some "   "), ("bad.txt", none)]
    (by decide)

/-- C7: with no generation backend configured, the answer is the fixed
explanatory text followed by the first 500 characters of the assembled
context (plus a trailing ellipsis), or the plain no-documents statement
when retrieval returned nothing. -/
theorem fallback_answer_no_backend (docs : List String) (req : RAGRequest)
    (now : Nat) :
    ((retrieve docs req.query req.top_k).1 = []
       ∧ ragQuery docs none req now
           = .ok ⟨req.query, "No relevant documents found for your query.",
                  [], "", now⟩)
    ∨ ((retrieve docs req.query req.top_k).1 ≠ []
       ∧ ragQuery docs none req now
           = .ok ⟨req.query,
                  "Based on the retrieved documents: "
                    ++ (joinSep "\n\n" (retrieve docs req.query req.top_k).1).take 500
                    ++ "...",
                  (retrieve docs req.query req.top_k).1,
                  joinSep "\n\n" (retrieve docs req.query req.top_k).1, now⟩) := by
  by_cases h : (retrieve docs req.query req.top_k).1 = []
  · left
    exact ⟨h, by simp [ragQuery, h]⟩
  · right
    exact ⟨h, by simp [ragQuery, h]⟩

/-- C8: a query identical to the document text (with at least one token)
scores exactly 1. -/
theorem identical_text_scores_one (t : String) (h : wordsOf t ≠ []) :
    docScore t t = 1 := by
  rw [docScore_def, Finset.union_self, Finset.inter_self]
  have hne : wordSet t ≠ ∅ := by
    rw [wordSet, ne_eq, List.toFinset_eq_empty_iff]
    exact h
  have hpos : 0 < (wordSet t).card :=
    Finset.card_pos.mpr (Finset.nonempty_iff_ne_empty.mpr hne)
  rw [if_pos hpos, div_self]
  exact_mod_cast Nat.pos_iff_ne_zero.mp hpos

theorem identical_text_scores_one_witness :
    wordsOf "cat mat" ≠ [] ∧ docScore "cat mat" "cat mat" = 1 :=
  ⟨by decide, identical_text_scores_one "cat mat" (by decide)⟩

/-- C3: for every corpus, query and k ≥ 1, `retrieve` returns at most k
scored documents, each score strictly positive (zero scores never
included), scores non-increasing, and — stability — for each score value
the returned (document, score) pairs form a sublist of the scored corpus
in its original order. -/
theorem retrieve_ranked_topk (documents : List String) (query : String)
    (k : Nat) (hk : 1 ≤ k) :
    (retrieve documents query k).1.length ≤ k
      ∧ (∀ s ∈ (retrieve documents query k).2, 0 < s)
      ∧ List.Pairwise (fun a b : ℚ => b ≤ a) (retrieve documents query k).2
      ∧ (∀ s : ℚ,
          List.Sublist
            (((retrieve documents query k).1.zip
                (retrieve documents query k).2).filter
              (fun p => decide (p.2 = s)))
            ((documents.map fun d => (d, docScore query d)).filter
              (fun p => decide (p.2 = s)))) := by
  by_cases h : documents = []
  · subst h
    refine ⟨?_, ?_, ?_, ?_⟩ <;> simp [retrieve]
  · rw [retrieve_def_ne _ _ _ h]
    refine ⟨?_, ?_, ?_, ?_⟩
    · rw [List.length_map, ]
      calc (((sortByScoreDesc (documents.map fun d => (d, docScore query d))).take k).filter
              (fun p => decide (0 < p.2))).length
          ≤ ((sortByScoreDesc (documents.map fun d => (d, docScore query d))).take k).length :=
            List.length_filter_le _ _
        _ ≤ k := by
            rw [List.length_take]
            exact min_le_left _ _
    · intro s hs
      obtain ⟨p, hp, rfl⟩ := List.mem_map.mp hs
      exact of_decide_eq_true (List.mem_filter.mp hp).2
    · have hsorted : List.Pairwise scoreGe
          (sortByScoreDesc (documents.map fun d => (d, docScore query d))) :=
        sortByScoreDesc_sorted _
      have h1 : List.Pairwise scoreGe
          ((sortByScoreDesc (documents.map fun d => (d, docScore query d))).take k) :=
        List.Pairwise.sublist (List.take_sublist _ _) hsorted
      have h2 : List.Pairwise scoreGe
          (((sortByScoreDesc (documents.map fun d => (d, docScore query d))).take k).filter
            (fun p => decide (0 < p.2))) :=
        List.Pairwise.sublist (List.filter_sublist _) h1
      rw [List.pairwise_map]
      exact h2
    · intro s
      rw [zip_map_fst_snd_self]
      have s1 : List.Sublist
          ((((sortByScoreDesc (documents.map fun d => (d, docScore query d))).take k).filter
              (fun p => decide (0 < p.2))).filter (fun p => decide (p.2 = s)))
          (((sortByScoreDesc (documents.map fun d => (d, docScore query d))).take k).filter
            (fun p => decide (p.2 = s))) :=
        List.Sublist.filter _ (List.filter_sublist _)
      have s2 : List.Sublist
          (((sortByScoreDesc (documents.map fun d => (d, docScore query d))).take k).filter
            (fun p => decide (p.2 = s)))
          ((sortByScoreDesc (documents.map fun d => (d, docScore query d))).filter
            (fun p => decide (p.2 = s))) :=
        List.Sublist.filter _ (List.take_sublist _ _)
      have s3 := filter_score_sortByScoreDesc s (documents.map fun d => (d, docScore query d))
      exact s3 ▸ (s1.trans s2)

theorem retrieve_ranked_topk_witness :
    1 ≤ 2
      ∧ ((retrieve ["alpha beta", "gamma"] "alpha" 2).1.length ≤ 2
         ∧ (∀ s ∈ (retrieve ["alpha beta", "gamma"] "alpha" 2).2, 0 < s)
         ∧ List.Pairwise (fun a b : ℚ => b ≤ a)
             (retrieve ["alpha beta", "gamma"] "alpha" 2).2
         ∧ (∀ s : ℚ,
             List.Sublist
               (((retrieve ["alpha beta", "gamma"] "alpha" 2).1.zip
                   (retrieve ["alpha beta", "gamma"] "alpha" 2).2).filter
                 (fun p => decide (p.2 = s)))
               ((["alpha beta", "gamma"].map
                   fun d => (d, docScore "alpha" d)).filter
                 (fun p => decide (p.2 = s))))) :=
  ⟨by decide, retrieve_ranked_topk ["alpha beta", "gamma"] "alpha" 2 (by decide)⟩

/-- C9 counterexample: the two retrieval implementations disagree on a
one-document corpus with no word overlap — `DocumentRetriever.retrieve`
drops the zero-scored document, `DSPyService.simple_retrieval` returns it. -/
theorem retrieve_simple_retrieval_differ :
    retrieve ["y"] "x" 1 ≠ simple_retrieval "x" ["y"] 1 := by
  have h := docScore_eval "x" "y" 0 2 (by decide) (by decide)
  have h1 : retrieve ["y"] "x" 1 = ([], []) := by
    simp [retrieve, sortByScoreDesc, List.insertionSort, List.orderedInsert, h]
  have h2 : simple_retrieval "x" ["y"] 1 = (["y"], [0]) := by
    simp [simple_retrieval, sortByScoreDesc, List.insertionSort,
      List.orderedInsert, h]
  rw [h1, h2]
  simp

/-- C9 amended: `DocumentRetriever.retrieve` equals
`DSPyService.simple_retrieval` after the zero-scored entries are dropped
pairwise from the latter's truncated result; the two agree exactly whenever
every score in `simple_retrieval`'s top-k is strictly positive. -/
theorem retrieve_refines_simple_retrieval (query : String)
    (documents : List String) (k : Nat) :
    retrieve documents query k
      = filterPositive (simple_retrieval query documents k) := by
  by_cases h : documents = []
  · subst h
    simp [retrieve, simple_retrieval, filterPositive, sortByScoreDesc]
  · rw [retrieve_def_ne _ _ _ h]
    have hzip : documents.zip (documents.map fun doc => docScore query doc)
        = documents.map fun d => (d, docScore query d) := by
      have hz := List.zip_map' id (fun doc => docScore query doc) documents
      rw [List.map_id] at hz
      simpa using hz
    show _ = filterPositive
        (((sortByScoreDesc (documents.zip
            (documents.map fun doc => docScore query doc))).take k).map Prod.fst,
         ((sortByScoreDesc (documents.zip
            (documents.map fun doc => docScore query doc))).take k).map Prod.snd)
    rw [hzip]
    show _ = (((((sortByScoreDesc (documents.map fun d => (d, docScore query d))).take k).map
          Prod.fst).zip
            (((sortByScoreDesc (documents.map fun d => (d, docScore query d))).take k).map
          Prod.snd)).filter (fun p => decide (0 < p.2)) |>.map Prod.fst,
        ((((sortByScoreDesc (documents.map fun d => (d, docScore query d))).take k).map
          Prod.fst).zip
            (((sortByScoreDesc (documents.map fun d => (d, docScore query d))).take k).map
          Prod.snd)).filter (fun p => decide (0 < p.2)) |>.map Prod.snd)
    rw [zip_map_fst_snd_self]

lemma retrieve_alpha :
    retrieve ["alpha beta"] "alpha" 1 = (["alpha beta"], [(1 : ℚ)/2]) := by
  have h := docScore_eval "alpha" "alpha beta" 1 2 (by decide) (by decide)
  norm_num at h
  simp [retrieve, sortByScoreDesc, List.insertionSort, List.orderedInsert, h]

lemma retrieve_alpha_fst_ne : (retrieve ["alpha beta"] "alpha" 1).1 ≠ [] := by
  rw [retrieve_alpha]
  simp

/-- C1 counterexample: with a configured generation backend that raises,
`rag_query` does not return a fallback response — the `try/except` turns
the error into an HTTP 500 failure. -/
theorem generation_error_not_recovered :
    ragQuery ["alpha beta"] (some fun _ _ => Except.error "boom")
        ⟨"alpha", 1⟩ 0
      = .error ⟨500, "RAG processing failed: boom"⟩ := by
  simp [ragQuery, retrieve_alpha_fst_ne]

/-- C1 amended: when retrieval succeeds but the configured generation call
raises, `rag_query` logs the error and raises
`HTTPException(500, "RAG processing failed: ...")` — a failure status, not
a fallback answer.  The deterministic fallback text is produced only when
no generation backend is configured. -/
theorem generation_error_returns_500 (docs : List String)
    (g : String → String → Except String String) (req : RAGRequest)
    (now : Nat) (msg : String)
    (hne : (retrieve docs req.query req.top_k).1 ≠ [])
    (hgen : g req.query (joinSep "\n\n" (retrieve docs req.query req.top_k).1)
              = .error msg) :
    ragQuery docs (some g) req now
      = .error ⟨500, "RAG processing failed: " ++ msg⟩ := by
  simp [ragQuery, hne, hgen]

theorem generation_error_returns_500_witness :
    (retrieve ["alpha beta"] "alpha" 1).1 ≠ []
      ∧ ragQuery ["alpha beta"] (some fun _ _ => Except.error "boom")
            ⟨"alpha", 1⟩ 0
          = .error ⟨500, "RAG processing failed: boom"⟩ :=
  ⟨retrieve_alpha_fst_ne,
   generation_error_returns_500 ["alpha beta"] (fun _ _ => Except.error "boom")
     ⟨"alpha", 1⟩ 0 "boom" retrieve_alpha_fst_ne rfl⟩

/-- C2 counterexample: a request with an empty query and an in-bound K is
not rejected — it passes schema validation and produces an ordinary
no-documents success response, not an InvalidQuery failure. -/
theorem empty_query_accepted :
    mkRetrievalRequest "" sample_docs 3 = some ("", sample_docs, 3)
      ∧ ragQuery sample_docs none ⟨"", 3⟩ 0
          = .ok ⟨"", "No relevant documents found for your query.", [], "", 0⟩ := by
  constructor
  · rw [mkRetrievalRequest, if_pos (by norm_num)]
  · simp [ragQuery, retrieve_empty_query]

/-- C2 amended: schema validation accepts a request iff K lies in [1,10] —
the query may be any string, including the empty one (an empty query then
flows to retrieval and yields the no-documents response).  For a request
whose retrieval is non-empty and whose generation call succeeds, the
handler packages query, generated answer, ranked source list, assembled
context and timestamp into the response; the per-source scores are computed
but not included in the response. -/
theorem request_validation_and_packaging (q : String) (ds docs : List String)
    (k : Int) (g : String → String → Except String String) (req : RAGRequest)
    (now : Nat) (ans : String)
    (hne : (retrieve docs req.query req.top_k).1 ≠ [])
    (hgen : g req.query (joinSep "\n\n" (retrieve docs req.query req.top_k).1)
              = .ok ans) :
    ((mkRetrievalRequest q ds k).isSome ↔ (1 ≤ k ∧ k ≤ 10))
      ∧ ragQuery docs (some g) req now
          = .ok ⟨req.query, ans, (retrieve docs req.query req.top_k).1,
                 joinSep "\n\n" (retrieve docs req.query req.top_k).1, now⟩ := by
  constructor
  · rw [mkRetrievalRequest]
    by_cases hb : 1 ≤ k ∧ k ≤ 10 <;> simp [hb]
  · simp [ragQuery, hne, hgen]

theorem request_validation_and_packaging_witness :
    (retrieve ["alpha beta"] "alpha" 1).1 ≠ []
      ∧ (((mkRetrievalRequest "" [] 3).isSome ↔ ((1 : Int) ≤ 3 ∧ (3 : Int) ≤ 10))
         ∧ ragQuery ["alpha beta"] (some fun _ _ => Except.ok "the answer")
               ⟨"alpha", 1⟩ 0
             = .ok ⟨"alpha", "the answer", (retrieve ["alpha beta"] "alpha" 1).1,
                    joinSep "\n\n" (retrieve ["alpha beta"] "alpha" 1).1, 0⟩) :=
  ⟨retrieve_alpha_fst_ne,
   request_validation_and_packaging "" [] ["alpha beta"] 3
     (fun _ _ => Except.ok "the answer") ⟨"alpha", 1⟩ 0 "the answer"
     retrieve_alpha_fst_ne rfl⟩

/-- Tokenizing a stored `"[name] rest"` document: the bracketed tag is the
first word (lowercased) whenever the file name contains no whitespace. -/
lemma wordsOf_tagged (name t : String)
    (hws : ∀ c ∈ name.data, c.isWhitespace = false) :
    wordsOf ("[" ++ name ++ "] " ++ t)
      = String.mk (('[' :: name.data ++ [']']).map Char.toLower) :: wordsOf t := by
  unfold wordsOf
  have hdata : ("[" ++ name ++ "] " ++ t).data
      = ('[' :: name.data ++ [']']) ++ (' ' :: t.data) := by
    rw [String.data_append, String.data_append, String.data_append]
    show (['['] ++ name.data) ++ [']', ' '] ++ t.data = _
    simp
  rw [hdata, List.map_append, List.map_cons]
  have hsp : Char.toLower ' ' = ' ' := by decide
  rw [hsp]
  apply splitWs_word_cons
  · intro c hc
    obtain ⟨c0, hc0, rfl⟩ := List.mem_map.mp hc
    rw [isWhitespace_toLower]
    rcases List.mem_cons.mp hc0 with rfl | hc1
    · rfl
    rcases List.mem_append.mp hc1 with hc2 | hc2
    · exact hws c0 hc2
    · rcases List.mem_singleton.mp hc2 with rfl
      rfl
  · simp

/-- C10: a readable file with non-empty stripped content is stored as
`"[name] content"`; the (lowercased) bracketed file-name tag is one of the
tokens scored for that document; and every retrieved passage is a corpus
document appearing verbatim inside the assembled context. -/
theorem tagged_document_format (files : List (String × Option String))
    (name content : String) (docs : List String) (query : String) (k : Nat)
    (hmem : (name, some content) ∈ files) (hne : pyStrip content ≠ "")
    (hws : ∀ c ∈ name.data, c.isWhitespace = false) :
    ("[" ++ name ++ "] " ++ pyStrip content) ∈ loadDocuments files
      ∧ String.mk (('[' :: name.data ++ [']']).map Char.toLower)
          ∈ wordSet ("[" ++ name ++ "] " ++ pyStrip content)
      ∧ (∀ d ∈ (retrieve docs query k).1,
          d ∈ docs
            ∧ ∃ a b, joinSep "\n\n" (retrieve docs query k).1 = a ++ d ++ b) := by
  refine ⟨?_, ?_, ?_⟩
  · have hstore : storeFile (name, some content)
        = some ("[" ++ name ++ "] " ++ pyStrip content) := by
      simp [storeFile, hne]
    have hmem2 : ("[" ++ name ++ "] " ++ pyStrip content)
        ∈ files.filterMap storeFile :=
      List.mem_filterMap.mpr ⟨(name, some content), hmem, hstore⟩
    rw [loadDocuments_def, if_neg (List.ne_nil_of_mem hmem2)]
    exact hmem2
  · rw [wordSet]
    apply List.mem_toFinset.mpr
    rw [wordsOf_tagged name (pyStrip content) hws]
    exact List.mem_cons_self _ _
  · intro d hd
    exact ⟨mem_retrieve_mem_documents docs query k d hd,
           joinSep_decomp "\n\n" _ d hd⟩

theorem tagged_document_format_witness :
    ((("a.txt", some "hello") ∈ [(("a.txt" : String), some ("hello" : String))])
      ∧ pyStrip "hello" ≠ ""
      ∧ (∀ c ∈ ("a.txt" : String).data, c.isWhitespace = false))
    ∧ (("[" ++ "a.txt" ++ "] " ++ pyStrip "hello")
          ∈ loadDocuments [("a.txt", some "hello")]
       ∧ String.mk (('[' :: ("a.txt" : String).data ++ [']']).map Char.toLower)
           ∈ wordSet ("[" ++ "a.txt" ++ "] " ++ pyStrip "hello")
       ∧ (∀ d ∈ (retrieve ["alpha beta"] "alpha" 1).1,
           d ∈ ["alpha beta"]
             ∧ ∃ a b,
                 joinSep "\n\n" (retrieve ["alpha beta"] "alpha" 1).1
                   = a ++ d ++ b)) :=
  ⟨⟨by decide, by decide, by decide⟩,
   tagged_document_format [("a.txt", some "hello")] "a.txt" "hello"
     ["alpha beta"] "alpha" 1 (by decide) (by decide) (by decide)⟩

end DSPyBridge
